import Mathlib

/-!
# Verification of the milvus-ingestion generation-and-partitioning engine

Shallow embedding of the data-generation engine of `milvus_fake_data`:

* `generator.py` — the row-wise generator (`generate_mock_data`,
  `_gen_pk_value`, `_gen_value_by_field`);
* `optimized_writer.py` — the vectorized writer (`generate_data_optimized`).

External random sources (Python's `random`, NumPy's global RNG, `faker`)
are modelled as explicit draw streams: every generator receives the raw
draws it consumes as function arguments.  A library primitive such as
`random.randint(low, high)` is embedded as a function of one raw draw that
lands in the documented range; the distribution itself is irrelevant to
every claim considered here.  Machine floats are modelled as `ℚ`
(exact arithmetic); the square root appearing in vector normalization is
handled in the theorems over `ℝ`.
-/

/-! ## Modelled random-library primitives -/

/-- Python `random.randint(low, high)`: uniform integer in `[low, high]`
(both ends inclusive), modelled from one raw draw `d`. -/
def pyRandint (low high : ℤ) (d : ℕ) : ℤ :=
  low + (d : ℤ) % (high - low + 1)

/-- NumPy `np.random.randint(low, high)`: uniform integer in `[low, high)`
(high exclusive), modelled from one raw draw `d`. -/
def npRandint (low high : ℤ) (d : ℕ) : ℤ :=
  low + (d : ℤ) % (high - low)

/-- NumPy `np.random.randint(low, high)` on naturals, `[low, high)`. -/
def npRandintN (low high : ℕ) (d : ℕ) : ℕ :=
  low + d % (high - low)

/-- A uniform draw in `[0, 1)` (`random.random()` / `np.random.random()`):
modelled as a 53-bit mantissa over `2^53`, the resolution of an IEEE
double in `[0,1)`. -/
def unitOf (d : ℕ) : ℚ :=
  ((d % 2 ^ 53 : ℕ) : ℚ) / (2 ^ 53 : ℚ)

/-- Python `random.uniform(low, high)`. -/
def pyUniform (low high : ℚ) (d : ℕ) : ℚ :=
  low + unitOf d * (high - low)

theorem unitOf_nonneg (d : ℕ) : 0 ≤ unitOf d := by
  unfold unitOf
  positivity

theorem unitOf_lt_one (d : ℕ) : unitOf d < 1 := by
  unfold unitOf
  rw [div_lt_one (by norm_num)]
  exact_mod_cast Nat.mod_lt d (by norm_num)

theorem pyRandint_mem (low high : ℤ) (d : ℕ) (h : low ≤ high) :
    low ≤ pyRandint low high d ∧ pyRandint low high d ≤ high := by
  unfold pyRandint
  have hpos : (0 : ℤ) < high - low + 1 := by omega
  have h1 := Int.emod_nonneg (d : ℤ) (by omega : high - low + 1 ≠ 0)
  have h2 := Int.emod_lt_of_pos (d : ℤ) hpos
  omega

theorem npRandint_mem (low high : ℤ) (d : ℕ) (h : low < high) :
    low ≤ npRandint low high d ∧ npRandint low high d < high := by
  unfold npRandint
  have h1 := Int.emod_nonneg (d : ℤ) (by omega : high - low ≠ 0)
  have h2 := Int.emod_lt_of_pos (d : ℤ) (by omega : (0:ℤ) < high - low)
  omega

theorem npRandintN_mem (low high : ℕ) (d : ℕ) (h : low < high) :
    low ≤ npRandintN low high d ∧ npRandintN low high d < high := by
  unfold npRandintN
  have h2 := Nat.mod_lt d (by omega : 0 < high - low)
  omega

/-! ## Decimal strings

Python's `str(...)` on integers, used by `_gen_pk_value` for text primary
keys and by the f-string `f"text_{i % 1000}"` of the optimized VarChar
pool.  `decDigits` is a structurally recursive (hence kernel-computable)
little-endian base-10 digit list, proved equal to `Nat.digits 10`. -/

def decDigitsAux : ℕ → ℕ → List ℕ
  | 0, _ => []
  | fuel + 1, n => if n = 0 then [] else n % 10 :: decDigitsAux fuel (n / 10)

/-- Little-endian base-10 digits of `n` (empty for `0`). -/
def decDigits (n : ℕ) : List ℕ := decDigitsAux n n

theorem decDigitsAux_eq_digits (fuel n : ℕ) (h : n ≤ fuel) :
    decDigitsAux fuel n = Nat.digits 10 n := by
  induction fuel generalizing n with
  | zero =>
    interval_cases n
    simp [decDigitsAux]
  | succ fuel ih =>
    by_cases hn : n = 0
    · simp [decDigitsAux, hn]
    · rw [decDigitsAux, if_neg hn,
        Nat.digits_def' (by norm_num : 1 < 10) (Nat.pos_of_ne_zero hn),
        ih (n / 10) (by omega)]

theorem decDigits_eq_digits (n : ℕ) : decDigits n = Nat.digits 10 n :=
  decDigitsAux_eq_digits n n le_rfl

/-- Python `str(n)` for a natural number: most-significant digit first. -/
def decStr (n : ℕ) : String :=
  if n = 0 then "0" else String.mk (((decDigits n).map Nat.digitChar).reverse)

/-- Python `str(z)` for an integer: a leading `-` for negative values. -/
def decStrInt (z : ℤ) : String :=
  if z < 0 then "-" ++ decStr z.natAbs else decStr z.natAbs

theorem digitChar_toNat (d : ℕ) (h : d < 10) :
    (Nat.digitChar d).toNat = d + 48 := by
  interval_cases d <;> rfl

/-- Decoder recovering `n` from `decStr n` (maps chars back to digits). -/
def undec (s : String) : ℕ :=
  Nat.ofDigits 10 ((s.data.map (fun c => c.toNat - 48)).reverse)

theorem undec_decStr (n : ℕ) : undec (decStr n) = n := by
  by_cases hn : n = 0
  · subst hn
    decide
  · unfold decStr
    rw [if_neg hn]
    unfold undec
    show Nat.ofDigits 10
      (((((decDigits n).map Nat.digitChar).reverse).map
        (fun c => c.toNat - 48)).reverse) = n
    rw [← List.map_reverse, List.reverse_reverse, List.map_map]
    have hmap : (decDigits n).map ((fun c => c.toNat - 48) ∘ Nat.digitChar)
        = (decDigits n).map id := by
      apply List.map_eq_map_iff.mpr
      intro d hd
      have hd10 : d < 10 := by
        rw [decDigits_eq_digits] at hd
        exact Nat.digits_lt_base (by norm_num) hd
      simp [Function.comp, digitChar_toNat d hd10]
    rw [hmap, List.map_id, decDigits_eq_digits, Nat.ofDigits_digits]

theorem decStr_injective : Function.Injective decStr :=
  Function.LeftInverse.injective undec_decStr

/-- The first character of `decStr n` is a digit, never `-`. -/
theorem decStr_head_ne_minus (n : ℕ) :
    (decStr n).data.head? ≠ some '-' := by
  unfold decStr
  by_cases hn : n = 0
  · rw [if_pos hn]
    decide
  · rw [if_neg hn]
    show (((decDigits n).map Nat.digitChar).reverse).head? ≠ some '-'
    rw [List.head?_reverse, List.getLast?_map]
    intro h
    rcases hopt : ((decDigits n).getLast?) with _ | d
    · rw [hopt] at h
      exact Option.noConfusion h
    · rw [hopt] at h
      have hdc : Nat.digitChar d = '-' := Option.some.inj h
      have hmem : d ∈ (decDigits n).getLast? := by
        rw [hopt]
        rfl
      rcases List.mem_getLast?_eq_getLast hmem with ⟨hne, hdl⟩
      have hd : d ∈ decDigits n := by
        rw [hdl]
        exact List.getLast_mem hne
      have hd10 : d < 10 := by
        rw [decDigits_eq_digits] at hd
        exact Nat.digits_lt_base (by norm_num) hd
      have h45 : (Nat.digitChar d).toNat = 45 := by
        rw [hdc]
        rfl
      rw [digitChar_toNat d hd10] at h45
      omega

theorem decStrInt_injective : Function.Injective decStrInt := by
  intro z w h
  unfold decStrInt at h
  by_cases hz : z < 0 <;> by_cases hw : w < 0
  · rw [if_pos hz, if_pos hw] at h
    have hdata : ('-' :: (decStr z.natAbs).data) = ('-' :: (decStr w.natAbs).data) :=
      congrArg String.data h
    injection hdata with _ htail
    have heq : decStr z.natAbs = decStr w.natAbs := by
      have e1 : String.mk (decStr z.natAbs).data = decStr z.natAbs := rfl
      have e2 : String.mk (decStr w.natAbs).data = decStr w.natAbs := rfl
      rw [← e1, ← e2, htail]
    have := decStr_injective heq
    omega
  · exfalso
    rw [if_pos hz, if_neg hw] at h
    have hh := congrArg (fun s => s.data.head?) h
    simp only at hh
    apply decStr_head_ne_minus w.natAbs
    rw [← hh]
    rfl
  · exfalso
    rw [if_neg hz, if_pos hw] at h
    have hh := congrArg (fun s => s.data.head?) h
    simp only at hh
    apply decStr_head_ne_minus z.natAbs
    rw [hh]
    rfl
  · rw [if_neg hz, if_neg hw] at h
    have := decStr_injective h
    omega

/-- Length bound for decimal strings: fewer than `10^k` means at most `k`
digits (for `0 < k`). -/
theorem decStr_length_le (n k : ℕ) (hk : 0 < k) (h : n < 10 ^ k) :
    (decStr n).length ≤ k := by
  unfold decStr
  by_cases hn : n = 0
  · simpa [hn] using hk
  · rw [if_neg hn]
    show (((decDigits n).map Nat.digitChar).reverse).length ≤ k
    rw [List.length_reverse, List.length_map, decDigits_eq_digits]
    by_contra hlen
    push_neg at hlen
    have h1 : 10 ^ (Nat.digits 10 n).length ≤ 10 * n :=
      Nat.base_pow_length_digits_le 10 n (by norm_num) hn
    have h2 : 10 ^ (k + 1) ≤ 10 ^ (Nat.digits 10 n).length :=
      Nat.pow_le_pow_right (by norm_num) hlen
    have h3 : 10 * 10 ^ k ≤ 10 * n := by
      calc 10 * 10 ^ k = 10 ^ (k + 1) := by ring
      _ ≤ 10 ^ (Nat.digits 10 n).length := h2
      _ ≤ 10 * n := h1
    omega

/-! ## Field schema

One field definition, mirroring the dict produced by the schema model dump
(`field.get(key, default)` accesses).  Absent keys are `none` / `false`.
The JSON keys `min`/`max` hold an integer for integer fields and a float
for float fields; the embedding keeps one typed slot for each. -/

structure FieldSpec where
  name : String
  type : String
  is_primary : Bool := false
  auto_id : Bool := false
  nullable : Bool := false
  dim : Option ℕ := none
  max_length : Option ℕ := none
  min_int : Option ℤ := none
  max_int : Option ℤ := none
  min_rat : Option ℚ := none
  max_rat : Option ℚ := none
  element_type : Option String := none
  max_capacity : Option ℕ := none
deriving DecidableEq

/-- Python `needle in hay` on strings: substring containment. -/
def strContains (hay needle : String) : Bool :=
  hay.data.tails.any (fun t => needle.data.isPrefixOf t)

/-! ## Row-wise generator (`generator.py`) -/

/-- A generated cell value (`_gen_value_by_field` result).  JSON object
contents beyond the embedded text are not modelled (no claim mentions
them). -/
inductive Val where
  | b : Bool → Val
  | i : ℤ → Val
  | q : ℚ → Val
  | s : String → Val
  | jsonObj : String → Val
  | arr : List Val → Val
  | vecI : List ℤ → Val
  | vecQ : List ℚ → Val

/-- A primary-key value (`_gen_pk_value` result). -/
inductive PkValue where
  | int : ℤ → PkValue
  | str : String → PkValue
deriving DecidableEq

/-- The draw streams one `_gen_value_by_field` call consumes.  The shared
global RNG of `random` / `numpy` / `faker` is abstracted as independent
per-call sources: no claim depends on cross-cell draw sequencing.
`chars` is the raw prose `faker.text` builds its result from. -/
structure Draws where
  nat : ℕ → ℕ
  rat : ℕ → ℚ
  chars : List Char

/-- `base_ts` of `generate_mock_data` for an explicit seed:
`(seed * 1000) << 18`. -/
def base_ts (seed : ℤ) : ℤ := seed * 1000 * 2 ^ 18

/-- `_gen_pk_value(f_type, base_ts, idx)`: `base_ts + idx` for INT64 keys,
its decimal string form otherwise. -/
def genPkValue (fType : String) (b : ℤ) (idx : ℕ) : PkValue :=
  if fType = "INT64" then .int (b + idx) else .str (decStrInt (b + idx))

/-- Python `str.upper()` (char-wise; ASCII type tags only). -/
def strToUpper (s : String) : String := String.mk (s.data.map Char.toUpper)

/-- Python `str.replace(old, new)`: replace every occurrence left to
right.  Structural recursion on a fuel that the character count bounds
(each step consumes at least one character when `old` is nonempty). -/
def replaceChars : ℕ → List Char → List Char → List Char → List Char
  | 0, s, _, _ => s
  | fuel + 1, s, old, new =>
    if old.isPrefixOf s ∧ old ≠ []
    then new ++ replaceChars fuel (s.drop old.length) old new
    else
      match s with
      | [] => []
      | c :: rest => c :: replaceChars fuel rest old new

def strReplace (s old new : String) : String :=
  String.mk (replaceChars s.data.length s.data old.data new.data)

/-- Canonicalization at the head of `_gen_value_by_field`: upper-case the
type tag, then rewrite vector names missing the in-family separator
(for example FLOATVECTOR to FLOAT_VECTOR). -/
def canonType (t : String) : String :=
  let f := strToUpper t
  if strContains f "VECTOR" && !(strContains f "_VECTOR")
  then strReplace f "VECTOR" "_VECTOR"
  else f

/-- Row-wise integer branch: `random.randint(min, max)` with documented
defaults `[0, 1_000_000]`. -/
def rowwiseIntValue (f : FieldSpec) (d : ℕ) : ℤ :=
  pyRandint (f.min_int.getD 0) (f.max_int.getD 1000000) d

/-- Row-wise float branch: `random.uniform(min, max)` with defaults
`[0.0, 1000.0]`. -/
def rowwiseFloatValue (f : FieldSpec) (d : ℕ) : ℚ :=
  pyUniform (f.min_rat.getD 0) (f.max_rat.getD 1000) d

/-- `int(max_length * 0.8)` — the 80% headroom target for text. -/
def safe_max_length (m : ℕ) : ℕ := m * 8 / 10

/-- `faker.text(max_nb_chars=m)`: an external library call whose contract
is a prose string of length at most `m`; modelled as truncation of the
raw prose material. -/
def fakerText (raw : List Char) (m : ℕ) : String := String.mk (raw.take m)

/-- Row-wise dense float vector branch: `np.random.random(dim)` —
`dim` uniform `[0,1)` draws, with no normalization. -/
def rowwiseFloatVec (d : Draws) (dim : ℕ) : List ℚ :=
  (List.range dim).map (fun i => unitOf (d.nat i))

/-- Row-wise binary vector branch: `np.random.randint(0, 2, dim)` —
`dim` values in `{0, 1}` (unpacked bits, one list entry per bit). -/
def rowwiseBinaryVec (d : Draws) (dim : ℕ) : List ℤ :=
  (List.range dim).map (fun i => npRandint 0 2 (d.nat i))

/-- `np.random.randint(0, 256, dim).astype(np.int8)`: wrap to `[-128,127]`. -/
def toInt8 (n : ℕ) : ℤ :=
  if n % 256 < 128 then (n % 256 : ℕ) else (n % 256 : ℕ) - 256

/-- `_gen_value_by_field(field)`, by fuel-indexed recursion (the fuel only
bounds ARRAY element recursion; validated schemas never nest arrays, so
any fuel above the nesting depth is faithful).  Unsupported type tags
raise `ValueError(f"Unsupported field type: {f_type}")`. -/
def genValueByField : ℕ → FieldSpec → Draws → Except String Val
  | fuel, f, d =>
    let fType := canonType f.type
    let dim := f.dim.getD 8
    let maxLength := f.max_length.getD 128
    if fType = "BOOL" then .ok (.b (d.nat 0 % 2 = 0))
    else if fType = "INT8" ∨ fType = "INT16" ∨ fType = "INT32" ∨ fType = "INT64" then
      .ok (.i (rowwiseIntValue f (d.nat 0)))
    else if fType = "FLOAT" ∨ fType = "DOUBLE" then
      .ok (.q (rowwiseFloatValue f (d.nat 0)))
    else if fType = "VARCHAR" ∨ fType = "STRING" then
      .ok (.s (fakerText d.chars (safe_max_length maxLength)))
    else if fType = "JSON" then
      .ok (.jsonObj (fakerText d.chars 16))
    else if fType = "ARRAY" then
      match fuel with
      | 0 => .error "array nesting exceeds modelled depth"
      | fuel + 1 =>
        let elementType := strToUpper (f.element_type.getD "Int32")
        let maxCapacity := f.max_capacity.getD 5
        let arrLen := (pyRandint 1 maxCapacity (d.nat 0)).toNat
        let elementField : FieldSpec :=
          { name := "", type := elementType,
            max_length := if (elementType = "VARCHAR" ∨ elementType = "STRING")
              then f.max_length else none }
        let elems := (List.range arrLen).map
          (fun k => genValueByField fuel elementField
            { d with nat := fun i => d.nat (i + k + 1) })
        if elems.any (fun e => e.isOk = false)
        then .error "Unsupported field type: element"
        else .ok (.arr (elems.map (fun e => e.toOption.getD (.b false))))
    else if fType = "BINARY_VECTOR" then .ok (.vecI (rowwiseBinaryVec d dim))
    else if fType = "INT8_VECTOR" then
      .ok (.vecI ((List.range dim).map (fun i => toInt8 (d.nat i))))
    else if fType = "FLOAT_VECTOR" ∨ fType = "FLOAT16_VECTOR" ∨ fType = "BFLOAT16_VECTOR" then
      .ok (.vecQ (rowwiseFloatVec d dim))
    else if fType = "SPARSE_FLOAT_VECTOR" then .ok (.vecI (rowwiseBinaryVec d dim))
    else .error ("Unsupported field type: " ++ fType)

/-- Null probability for nullable fields. -/
def NULL_PROB : ℚ := 1 / 10

/-- One cell of the row loop of `generate_mock_data`: skip `auto_id`
fields, then the primary-key branch, then the nullable-null branch, then
the per-type generator.  `.ok none` means no entry is emitted; `.ok (some
none)` an explicit null; `.ok (some (some v))` a value. -/
def rowwiseCell (pkName : Option String) (b : ℤ) (idx : ℕ) (f : FieldSpec)
    (nullDraw : ℕ) (d : Draws) : Except String (Option (Option Val)) :=
  if f.auto_id then .ok none
  else if pkName = some f.name then
    .ok (some (some (match genPkValue (strToUpper f.type) b idx with
      | .int z => .i z
      | .str s => .s s)))
  else if f.nullable && decide (unitOf nullDraw < NULL_PROB) then .ok (some none)
  else (genValueByField 2 f d).map (fun v => some (some v))

/-- The cells of one row, in field order; `k` is the field position used
to index the per-cell draw sources. -/
def rowwiseCells (pkName : Option String) (b : ℤ) (idx : ℕ) :
    List FieldSpec → ℕ → (ℕ → ℕ) → (ℕ → Draws) →
    Except String (List (String × Option Val))
  | [], _, _, _ => .ok []
  | f :: rest, k, nd, ds =>
    match rowwiseCell pkName b idx f (nd k) (ds k) with
    | .error e => .error e
    | .ok none => rowwiseCells pkName b idx rest (k + 1) nd ds
    | .ok (some v) =>
      match rowwiseCells pkName b idx rest (k + 1) nd ds with
      | .error e => .error e
      | .ok tail => .ok ((f.name, v) :: tail)

/-- One row of `generate_mock_data`: the primary-key field is the first
field flagged `is_primary`. -/
def rowwiseRow (fields : List FieldSpec) (b : ℤ) (idx : ℕ)
    (nd : ℕ → ℕ) (ds : ℕ → Draws) :
    Except String (List (String × Option Val)) :=
  rowwiseCells ((fields.find? (fun f => f.is_primary)).map (fun f => f.name))
    b idx fields 0 nd ds

/-! ## Optimized writer (`generate_data_optimized`) -/

/-- `effective_max_rows = min(max_rows_per_file, batch_size * 10)`. -/
def effective_max_rows (max_rows_per_file batch_size : ℕ) : ℕ :=
  min max_rows_per_file (batch_size * 10)

/-- `total_files = max(1, (rows + effective_max_rows - 1) // effective_max_rows)`,
computed before the loop starts. -/
def total_files (rows eff : ℕ) : ℕ :=
  max 1 ((rows + eff - 1) / eff)

/-- The per-file row counts produced by the generation loop: while rows
remain, take `min(remaining, max_rows_per_file, batch_size * 10)` (given
here as `min remaining eff`).  The `eff = 0` guard is model-side
totalization: the source loop would not terminate there, and every
statement proved below assumes `0 < eff`. -/
def fileRowCounts (remaining eff : ℕ) : List ℕ :=
  if remaining = 0 ∨ eff = 0 then []
  else
    let cur := min remaining eff
    cur :: fileRowCounts (remaining - cur) eff
termination_by remaining
decreasing_by
  rename_i h
  push_neg at h
  have h1 : 0 < min remaining eff := lt_min (Nat.pos_of_ne_zero h.1) (Nat.pos_of_ne_zero h.2)
  omega

/-- The primary-key column of each file: `np.arange(pk_offset, pk_offset +
current_batch_rows)`, with `pk_offset` advanced by the batch size after
every file (carried across file boundaries, never reset). -/
def optPkSeq (remaining eff offset : ℕ) : List (List ℕ) :=
  if remaining = 0 ∨ eff = 0 then []
  else
    let cur := min remaining eff
    List.range' offset cur :: optPkSeq (remaining - cur) eff (offset + cur)
termination_by remaining
decreasing_by
  rename_i h
  push_neg at h
  have h1 : 0 < min remaining eff := lt_min (Nat.pos_of_ne_zero h.1) (Nat.pos_of_ne_zero h.2)
  omega

/-- A generated column of the optimized writer.  JSON object contents and
the bit-level fp16/bf16 re-encodings are not modelled (no claim mentions
them); float-vector columns carry the raw normal draws, normalization
being stated over `ℝ` in the theorems. -/
inductive Col where
  | ints : List ℤ → Col
  | rats : List ℚ → Col
  | bools : List Bool → Col
  | strs : List String → Col
  | jsons : ℕ → Col
  | arrsI : List (List ℤ) → Col
  | arrsS : List (List String) → Col
  | vecsQ : List (List ℚ) → Col
  | bytes : List (List ℕ) → Col
deriving DecidableEq

/-- Classification pass: `"Vector" in field["type"]` sends a field to the
vector list, everything else to the scalar list (order preserved). -/
def classifyFields (fields : List FieldSpec) : List FieldSpec × List FieldSpec :=
  (fields.filter (fun f => strContains f.type "Vector"),
   fields.filter (fun f => !strContains f.type "Vector"))

/-- The Int64 branch: sequential `np.arange(pk_offset, ...)` only for a
primary key without `auto_id`; otherwise `np.random.randint(-999999,
999999)` values (whatever `min`/`max` the field declares). -/
def optInt64Column (f : FieldSpec) (pk_offset : ℕ) (nd : ℕ → ℕ) (n : ℕ) : List ℤ :=
  if f.is_primary && !f.auto_id
  then (List.range n).map (fun i => ((pk_offset + i : ℕ) : ℤ))
  else (List.range n).map (fun i => npRandint (-999999) 999999 (nd i))

/-- The reused string pool `[f"text_{i % 1000}" for i in range(1000)]`. -/
def optVarcharPool : List String :=
  (List.range 1000).map (fun i => "text_" ++ decStr (i % 1000))

/-- VarChar/String branch: one pool string per row, selected by
`np.random.randint(0, len(string_pool))`.  The declared `max_length` is
never consulted. -/
def optVarcharColumn (nd : ℕ → ℕ) (n : ℕ) : List String :=
  (List.range n).map
    (fun r => optVarcharPool.getD (npRandintN 0 optVarcharPool.length (nd r)) "")

/-- FloatVector branch before normalization:
`np.random.randn(current_batch_rows, dim)` as a row-major draw grid. -/
def optFloatVectorRaw (qs : ℕ → ℚ) (n dim : ℕ) : List (List ℚ) :=
  (List.range n).map (fun r => (List.range dim).map (fun c => qs (r * dim + c)))

/-- BinaryVector branch: `byte_dim = dim // 8` uniform bytes per row from
`np.random.randint(0, 256, (rows, byte_dim), dtype=np.uint8)`. -/
def optBinaryVecColumn (nd : ℕ → ℕ) (n dim : ℕ) : List (List ℕ) :=
  (List.range n).map
    (fun r => (List.range (dim / 8)).map
      (fun c => npRandintN 0 256 (nd (r * (dim / 8) + c))))

/-- Int8Vector branch: `np.random.randint(-128, 128, (rows, dim))`. -/
def optInt8VecColumn (nd : ℕ → ℕ) (n dim : ℕ) : List (List ℤ) :=
  (List.range n).map
    (fun r => (List.range dim).map (fun c => npRandint (-128) 128 (nd (r * dim + c))))

/-- Scalar-field dispatch of the optimized writer.  Matching the source,
there is no fallback branch: a scalar field whose type tag matches no
case contributes nothing to the data dict (`none` here).  Int8 / Int16 /
Int32 have no case.  Array element values and JSON object contents are
abstracted (no claim mentions them): for arrays the element-count and
value-range structure is kept. -/
def optScalarColumn (f : FieldSpec) (pk_offset : ℕ) (nd : ℕ → ℕ) (n : ℕ) :
    Option Col :=
  if f.type = "Int64" then some (.ints (optInt64Column f pk_offset nd n))
  else if f.type = "Float" then
    some (.rats ((List.range n).map (fun i => unitOf (nd i))))
  else if f.type = "Double" then
    some (.rats ((List.range n).map (fun i => unitOf (nd i))))
  else if f.type = "Bool" then
    some (.bools ((List.range n).map (fun i => nd i % 2 = 1)))
  else if f.type = "VarChar" ∨ f.type = "String" then
    some (.strs (optVarcharColumn nd n))
  else if f.type = "JSON" then some (.jsons n)
  else if f.type = "Array" then
    let maxCapacity := f.max_capacity.getD 5
    let elementType := f.element_type.getD "Int32"
    if elementType = "Int32" ∨ elementType = "Int64" then
      some (.arrsI ((List.range n).map
        (fun r => (List.range (npRandintN 0 (maxCapacity + 1) (nd r))).map
          (fun k => npRandint (-999) 999 (nd (n + r * maxCapacity + k))))))
    else
      some (.arrsS ((List.range n).map
        (fun r => ((List.range maxCapacity).map (fun j => "item_" ++ decStr j)).take
          (npRandintN 0 (maxCapacity + 1) (nd r)))))
  else none

/-- Vector-field dispatch of the optimized writer.  As in the source there
is no fallback branch: an unmatched vector-classified field contributes
nothing (`none`). -/
def optVectorColumn (f : FieldSpec) (nd : ℕ → ℕ) (qs : ℕ → ℚ) (n : ℕ) :
    Option Col :=
  let dim := f.dim.getD 128
  if f.type = "FloatVector" then some (.vecsQ (optFloatVectorRaw qs n dim))
  else if f.type = "BinaryVector" then some (.bytes (optBinaryVecColumn nd n dim))
  else if f.type = "Int8Vector" then some (.arrsI (optInt8VecColumn nd n dim))
  else if f.type = "Float16Vector" ∨ f.type = "BFloat16Vector" then
    some (.vecsQ (optFloatVectorRaw qs n dim))
  else none

/-- One batch's assembled data dict: scalar columns first (loop order),
then vector columns; fields whose dispatch yields `none` are absent. -/
def optAssemble (fields : List FieldSpec) (pk_offset : ℕ)
    (nd : ℕ → ℕ) (qs : ℕ → ℚ) (n : ℕ) : List (String × Col) :=
  let cls := classifyFields fields
  cls.2.filterMap (fun f => (optScalarColumn f pk_offset nd n).map (fun c => (f.name, c)))
    ++ cls.1.filterMap (fun f => (optVectorColumn f nd qs n).map (fun c => (f.name, c)))

/-- Python truthiness of the optional seed: the source guards seeding with
`if seed:`, so `None` and `0` both skip `np.random.seed`. -/
def pyTruthy : Option ℤ → Bool
  | none => false
  | some s => s != 0

/-- The guard used by the row-wise generator (`if seed is not None:`). -/
def rowwiseSeedGuard (seed : Option ℤ) : Bool := seed.isSome

/-- An abstract deterministic model of `np.random.seed(s)`: the stream the
seeded global RNG produces. -/
def seedStream (s : ℤ) : ℕ → ℕ := fun i => s.natAbs + i

/-- The draw stream the optimized run generates from: the seeded stream
when `if seed:` fires, the ambient global-RNG stream otherwise. -/
def optRngStream (seed : Option ℤ) (ambient : ℕ → ℕ) : ℕ → ℕ :=
  if pyTruthy seed then seedStream ((seed.getD 0)) else ambient

/-! ## Loop lemmas for the partitioning engine -/

theorem fileRowCounts_sum (eff : ℕ) (heff : 0 < eff) :
    ∀ remaining, (fileRowCounts remaining eff).sum = remaining := by
  intro remaining
  induction remaining using Nat.strong_induction_on with
  | _ remaining ih =>
    rw [fileRowCounts]
    by_cases h0 : remaining = 0 ∨ eff = 0
    · rw [if_pos h0]
      rcases h0 with h | h
      · simp [h]
      · omega
    · rw [if_neg h0]
      push_neg at h0
      have hlt : remaining - min remaining eff < remaining := by
        have h1 : 0 < min remaining eff := lt_min (Nat.pos_of_ne_zero h0.1) heff
        omega
      simp only [List.sum_cons, ih _ hlt]
      have : min remaining eff ≤ remaining := Nat.min_le_left _ _
      omega

theorem fileRowCounts_length (eff : ℕ) (heff : 0 < eff) :
    ∀ remaining, 0 < remaining →
      (fileRowCounts remaining eff).length = (remaining + eff - 1) / eff := by
  intro remaining
  induction remaining using Nat.strong_induction_on with
  | _ remaining ih =>
    intro hpos
    rw [fileRowCounts, if_neg (by omega : ¬(remaining = 0 ∨ eff = 0))]
    by_cases hle : remaining ≤ eff
    · show (min remaining eff :: fileRowCounts (remaining - min remaining eff) eff).length = _
      rw [min_eq_left hle, Nat.sub_self, fileRowCounts, if_pos (Or.inl rfl)]
      have h1 : 1 * eff ≤ remaining + eff - 1 := by omega
      have h2 : remaining + eff - 1 < (1 + 1) * eff := by omega
      simp [Nat.div_eq_of_lt_le h1 h2]
    · push_neg at hle
      show (min remaining eff :: fileRowCounts (remaining - min remaining eff) eff).length = _
      rw [min_eq_right (le_of_lt hle)]
      simp only [List.length_cons]
      rw [ih (remaining - eff) (by omega) (by omega)]
      have heq : remaining + eff - 1 = (remaining - eff + eff - 1) + eff := by omega
      rw [heq, Nat.add_div_right _ heff]

/-- C1: with positive `total_rows`, `batch_size`, `max_rows_per_file`, the
per-file row counts of the generation loop sum to `total_rows` exactly,
and the number of generated files (the manifest's `file_count`, the length
of `all_files_created`) equals
`ceil(total_rows / min(max_rows_per_file, batch_size*10))`, which is the
`total_files` quantity computed before generation starts. -/
theorem milvus_c1_row_conservation (rows batch_size max_rows_per_file : ℕ)
    (hr : 0 < rows) (hb : 0 < batch_size) (hm : 0 < max_rows_per_file) :
    (fileRowCounts rows (effective_max_rows max_rows_per_file batch_size)).sum = rows ∧
    (fileRowCounts rows (effective_max_rows max_rows_per_file batch_size)).length
      = (rows + effective_max_rows max_rows_per_file batch_size - 1)
        / effective_max_rows max_rows_per_file batch_size ∧
    (fileRowCounts rows (effective_max_rows max_rows_per_file batch_size)).length
      = total_files rows (effective_max_rows max_rows_per_file batch_size) := by
  have heff : 0 < effective_max_rows max_rows_per_file batch_size :=
    lt_min hm (by omega)
  refine ⟨fileRowCounts_sum _ heff rows, fileRowCounts_length _ heff rows hr, ?_⟩
  rw [fileRowCounts_length _ heff rows hr]
  unfold total_files
  have h1 : 1 ≤ (rows + effective_max_rows max_rows_per_file batch_size - 1)
      / effective_max_rows max_rows_per_file batch_size :=
    (Nat.one_le_div_iff heff).mpr (by omega)
  omega

/-- C1 witness: the spec's round-trip example 2 — 25 rows,
`max_rows_per_file = 10`, `batch_size = 10` gives files of 10/10/5 rows
and `file_count = 3`. -/
theorem milvus_c1_witness :
    (fileRowCounts 25 (effective_max_rows 10 10)).sum = 25 ∧
    (fileRowCounts 25 (effective_max_rows 10 10)).length
      = (25 + effective_max_rows 10 10 - 1) / effective_max_rows 10 10 ∧
    (fileRowCounts 25 (effective_max_rows 10 10)).length
      = total_files 25 (effective_max_rows 10 10) :=
  milvus_c1_row_conservation 25 10 10 (by norm_num) (by norm_num) (by norm_num)

theorem optPkSeq_join (eff : ℕ) (heff : 0 < eff) :
    ∀ remaining offset,
      (optPkSeq remaining eff offset).flatten = List.range' offset remaining := by
  intro remaining
  induction remaining using Nat.strong_induction_on with
  | _ remaining ih =>
    intro offset
    rw [optPkSeq]
    by_cases h0 : remaining = 0 ∨ eff = 0
    · rw [if_pos h0]
      rcases h0 with h | h
      · simp [h]
      · omega
    · rw [if_neg h0]
      push_neg at h0
      show (List.range' offset (min remaining eff)
          :: optPkSeq (remaining - min remaining eff) eff
              (offset + min remaining eff)).flatten = _
      have hminle : min remaining eff ≤ remaining := Nat.min_le_left _ _
      have hlt : remaining - min remaining eff < remaining := by
        have h1 : 0 < min remaining eff :=
          lt_min (Nat.pos_of_ne_zero h0.1) heff
        omega
      rw [List.flatten_cons, ih _ hlt]
      have happ := List.range'_append offset (min remaining eff)
        (remaining - min remaining eff) 1
      rw [one_mul] at happ
      rw [happ, show remaining - min remaining eff + min remaining eff
        = remaining from by omega]

/-- C2 counterexample: in a run with a text (VarChar) primary key and
seed 0, rows 9 and 10 receive the keys `"9"` and `"10"`, and `"9" <
"10"` is false for string comparison — the generated text keys are not
strictly increasing as strings. -/
theorem milvus_c2_counterexample :
    genPkValue "VARCHAR" (base_ts 0) 9 = .str "9" ∧
    genPkValue "VARCHAR" (base_ts 0) 10 = .str "10" ∧
    (9 : ℕ) < 10 ∧ ¬("9" < "10") := by
  refine ⟨by decide, by decide, by decide, ?_⟩
  rw [String.lt_iff_toList_lt]
  decide

/-- C2 amended: for any two row indices `i < j` of one run, the integer
underlying the primary key strictly increases — an INT64 key is that
integer itself, a text key its decimal string, so all keys of the run are
pairwise distinct (though text keys need not be lexicographically
increasing); in the optimized path the Int64 primary-key columns of the
files concatenate to `0, 1, ..., rows-1` (carried across file
boundaries), a strictly increasing sequence. -/
theorem milvus_c2_amended (seed : ℤ) (i j rows eff : ℕ)
    (hij : i < j) (heff : 0 < eff) :
    base_ts seed + i < base_ts seed + j ∧
    genPkValue "INT64" (base_ts seed) i = .int (base_ts seed + i) ∧
    genPkValue "VARCHAR" (base_ts seed) i ≠ genPkValue "VARCHAR" (base_ts seed) j ∧
    (optPkSeq rows eff 0).flatten = List.range rows ∧
    List.Pairwise (· < ·) ((optPkSeq rows eff 0).flatten) := by
  refine ⟨by omega, rfl, ?_, ?_, ?_⟩
  · intro h
    unfold genPkValue at h
    rw [if_neg (by decide), if_neg (by decide)] at h
    injection h with h'
    have := decStrInt_injective h'
    omega
  · rw [optPkSeq_join eff heff rows 0]
    exact (List.range_eq_range' rows).symm
  · rw [optPkSeq_join eff heff rows 0, ← List.range_eq_range']
    exact List.pairwise_lt_range rows

/-- C2 witness: the amended statement at seed 0, rows 0 < 1, a 3-row run
partitioned in files of at most 2 rows. -/
theorem milvus_c2_witness :
    base_ts 0 + (0 : ℕ) < base_ts 0 + (1 : ℕ) ∧
    genPkValue "INT64" (base_ts 0) 0 = .int (base_ts 0 + (0 : ℕ)) ∧
    genPkValue "VARCHAR" (base_ts 0) 0 ≠ genPkValue "VARCHAR" (base_ts 0) 1 ∧
    (optPkSeq 3 2 0).flatten = List.range 3 ∧
    List.Pairwise (· < ·) ((optPkSeq 3 2 0).flatten) :=
  milvus_c2_amended 0 0 1 3 2 (by norm_num) (by norm_num)

/-! ## C3: the seed-zero reproducibility bug -/

/-- A plain (non-primary) Int64 field. -/
def plainInt64Field : FieldSpec := { name := "n", type := "Int64" }

/-- The Int64 column of a 1-row optimized run as a function of the seed
argument and of the ambient global-RNG stream present before the run. -/
def optFirstInt64 (seed : Option ℤ) (ambient : ℕ → ℕ) : List ℤ :=
  optInt64Column plainInt64Field 0 (optRngStream seed ambient) 1

/-- C3: the optimized writer guards seeding with `if seed:`, so the
explicitly supplied seed `0` never reaches `np.random.seed` and the run
keeps consuming the ambient global RNG: two runs with seed 0 but
different ambient states produce different data, while a nonzero seed
(here 7) makes the output independent of the ambient state.  The
row-wise generator's guard (`if seed is not None:`) would have seeded. -/
theorem milvus_c3_seed_zero_bug :
    pyTruthy (some 0) = false ∧
    rowwiseSeedGuard (some 0) = true ∧
    optFirstInt64 (some 0) (fun _ => 0) ≠ optFirstInt64 (some 0) (fun _ => 1) ∧
    optFirstInt64 (some 7) (fun _ => 0) = optFirstInt64 (some 7) (fun _ => 1) := by
  refine ⟨rfl, rfl, by decide, by decide⟩

/-! ## C4: unknown type tags in the optimized path -/

/-- A field with an unrecognized vector type tag. -/
def unknownVecField : FieldSpec := { name := "v", type := "UnknownVector" }

/-- C4: `"UnknownVector"` is classified as a vector field (substring
test), matches no vector-generation branch (`none`), and the assembled
data dict of the batch is empty — the column is silently omitted while
the partition loop still writes one file; the row-wise generator instead
raises `ValueError("Unsupported field type: UNKNOWN_VECTOR")`, naming the
canonicalized type tag. -/
theorem milvus_c4_unknown_type_bug :
    strContains "UnknownVector" "Vector" = true ∧
    optVectorColumn unknownVecField (fun _ => 0) (fun _ => 0) 1 = none ∧
    optAssemble [unknownVecField] 0 (fun _ => 0) (fun _ => 0) 1 = [] ∧
    (fileRowCounts 1 (effective_max_rows 1000000 50000)).length = 1 ∧
    genValueByField 2 unknownVecField ⟨fun _ => 0, fun _ => 0, []⟩
      = .error "Unsupported field type: UNKNOWN_VECTOR" := by
  refine ⟨by decide, by decide, by decide, ?_, rfl⟩
  rw [fileRowCounts_length _ (by norm_num [effective_max_rows]) 1 (by norm_num)]
  norm_num [effective_max_rows]

/-! ## C5: float-vector dimensions and L2 normalization -/

/-- Sum of squared components (the square of the L2 norm), over `ℚ`. -/
def sumSq (v : List ℚ) : ℚ := (v.map (fun x => x * x)).sum

theorem sumSq_div_sq (v : List ℚ) (nrm : ℝ) (h : nrm ≠ 0) :
    (v.map (fun x : ℚ => ((x : ℝ) / nrm) * ((x : ℝ) / nrm))).sum
      = ((sumSq v : ℚ) : ℝ) / nrm ^ 2 := by
  induction v with
  | nil => simp [sumSq]
  | cons x xs ih =>
    have e2 : sumSq (x :: xs) = x * x + sumSq xs := rfl
    simp only [List.map_cons, List.sum_cons, e2, ih]
    push_cast
    field_simp
    ring

/-- C5 counterexample: in the row-wise path a FloatVector with `dim = 1`
can come out as `[1/2]` (a raw uniform `[0,1)` draw, no normalization):
its L2 norm — the nonnegative root of the squared-component sum — is
`1/2`, which is not within tolerance `1/4` of `1.0`. -/
theorem milvus_c5_counterexample :
    rowwiseFloatVec ⟨fun _ => 2 ^ 52, fun _ => 0, []⟩ 1 = [1 / 2] ∧
    ((1 : ℝ) / 2) ^ 2
      = ((sumSq (rowwiseFloatVec ⟨fun _ => 2 ^ 52, fun _ => 0, []⟩ 1) : ℚ) : ℝ) ∧
    ¬(|(1 : ℝ) / 2 - 1| ≤ 1 / 4) := by
  have h1 : rowwiseFloatVec ⟨fun _ => 2 ^ 52, fun _ => 0, []⟩ 1 = [1 / 2] := by
    show [unitOf (2 ^ 52)] = [1 / 2]
    norm_num [unitOf]
  refine ⟨h1, ?_, ?_⟩
  · rw [h1]
    show ((1 : ℝ) / 2) ^ 2 = ((1 / 2 * (1 / 2) + 0 : ℚ) : ℝ)
    push_cast
    norm_num
  · rw [show (1 : ℝ) / 2 - 1 = -(1 / 2) by norm_num, abs_neg,
      abs_of_pos (by norm_num : (0 : ℝ) < 1 / 2)]
    norm_num

/-- C5 amended: every vector of the optimized FloatVector batch has
exactly `dim` components and, after the writer's division by its
Euclidean norm `nrm` (any positive real with `nrm² = Σ xᵢ²`, which exists
whenever the raw draws are not all zero), unit squared L2 norm; the
row-wise path instead emits `dim` raw uniform `[0,1)` components with no
normalization. -/
theorem milvus_c5_amended (qs : ℕ → ℚ) (n dim : ℕ) (row : List ℚ)
    (hrow : row ∈ optFloatVectorRaw qs n dim) (nrm : ℝ)
    (hpos : 0 < nrm) (hsq : nrm ^ 2 = ((sumSq row : ℚ) : ℝ)) :
    row.length = dim ∧
    (row.map (fun x : ℚ => (x : ℝ) / nrm)).length = dim ∧
    (row.map (fun x : ℚ => ((x : ℝ) / nrm) * ((x : ℝ) / nrm))).sum = 1 ∧
    ∀ d : Draws, (rowwiseFloatVec d dim).length = dim ∧
      ∀ x ∈ rowwiseFloatVec d dim, 0 ≤ x ∧ x < 1 := by
  obtain ⟨r, hr, hre⟩ := List.mem_map.mp hrow
  have hlen : row.length = dim := by
    rw [← hre]
    simp
  refine ⟨hlen, by simp [hlen], ?_, ?_⟩
  · rw [sumSq_div_sq row nrm (ne_of_gt hpos), ← hsq]
    field_simp
  · intro d
    constructor
    · simp [rowwiseFloatVec]
    · intro x hx
      obtain ⟨i, hi, hxe⟩ := List.mem_map.mp hx
      rw [← hxe]
      exact ⟨unitOf_nonneg _, unitOf_lt_one _⟩

/-- C5 witness: raw draws `[3, 4]` (one row, `dim = 2`) have Euclidean
norm `5`; the normalized vector has unit squared norm. -/
theorem milvus_c5_witness :
    (([3, 4] : List ℚ).map (fun x : ℚ => ((x : ℝ) / 5) * ((x : ℝ) / 5))).sum = 1 ∧
    ([3, 4] : List ℚ).length = 2 := by
  have h := milvus_c5_amended (fun i => if i = 0 then 3 else 4) 1 2 [3, 4]
    (by decide) 5 (by norm_num) (by
      show (5 : ℝ) ^ 2 = ((3 * 3 + (4 * 4 + 0) : ℚ) : ℝ)
      push_cast
      norm_num)
  exact ⟨h.2.2.1, h.1⟩

/-! ## C6: text length versus `max_length` -/

theorem decStr_length_le3 (i : ℕ) (h : i < 1000) : (decStr i).length ≤ 3 :=
  decStr_length_le i 3 (by norm_num) (by norm_num; omega)

theorem optVarcharPool_length_le (s : String) (hs : s ∈ optVarcharPool) :
    s.length ≤ 8 := by
  obtain ⟨i, hi, hse⟩ := List.mem_map.mp hs
  rw [← hse, String.length_append]
  have h3 : (decStr (i % 1000)).length ≤ 3 :=
    decStr_length_le3 (i % 1000) (Nat.mod_lt i (by norm_num))
  have h5 : ("text_" : String).length = 5 := rfl
  omega

set_option maxRecDepth 100000 in
/-- C6 counterexample: for a VarChar field with `max_length = 5` the
optimized path still draws from the fixed `text_N` pool — the generated
string `"text_0"` has length 6 > 5. -/
theorem milvus_c6_counterexample :
    optVarcharColumn (fun _ => 0) 1 = ["text_0"] ∧
    ¬(("text_0" : String).length ≤ 5) := by
  refine ⟨by decide, by decide⟩

/-- C6 amended: generated text lengths are bounded by 8 in the optimized
path (the pool ignores `max_length`, so the declared bound is honored
exactly when `max_length ≥ 8` — in particular for `max_length = 10`); the
row-wise path truncates to `int(max_length * 0.8) ≤ max_length` for every
`max_length`. -/
theorem milvus_c6_amended (nd : ℕ → ℕ) (n m : ℕ) (hm : 8 ≤ m) :
    (∀ s ∈ optVarcharColumn nd n, s.length ≤ 8 ∧ s.length ≤ m) ∧
    (∀ (raw : List Char) (k : ℕ),
      (fakerText raw (safe_max_length k)).length ≤ safe_max_length k ∧
      (fakerText raw (safe_max_length k)).length ≤ k) := by
  constructor
  · intro s hs
    obtain ⟨r, hr, hse⟩ := List.mem_map.mp hs
    have hlen : optVarcharPool.length = 1000 := by
      simp [optVarcharPool]
    have hidx : npRandintN 0 optVarcharPool.length (nd r) < optVarcharPool.length :=
      (npRandintN_mem 0 optVarcharPool.length (nd r) (by rw [hlen]; norm_num)).2
    have hmem : optVarcharPool.getD (npRandintN 0 optVarcharPool.length (nd r)) ""
        ∈ optVarcharPool := by
      rw [List.getD_eq_getElem _ _ hidx]
      exact List.getElem_mem hidx
    have h8 := optVarcharPool_length_le _ hmem
    rw [← hse]
    exact ⟨h8, le_trans h8 hm⟩
  · intro raw k
    have h1 : (fakerText raw (safe_max_length k)).length ≤ safe_max_length k := by
      show (raw.take (safe_max_length k)).length ≤ safe_max_length k
      simp [List.length_take]
    have h2 : safe_max_length k ≤ k := by
      unfold safe_max_length
      omega
    exact ⟨h1, le_trans h1 h2⟩

set_option maxRecDepth 100000 in
/-- C6 witness: for `max_length = 10` the optimized pool string
`"text_0"` and a row-wise generated string both respect the bound. -/
theorem milvus_c6_witness :
    ("text_0" : String).length ≤ 10 ∧
    (fakerText [] (safe_max_length 10)).length ≤ 10 := by
  have h := milvus_c6_amended (fun _ => 0) 1 10 (by norm_num)
  have hcol : optVarcharColumn (fun _ => 0) 1 = ["text_0"] := by decide
  refine ⟨(h.1 "text_0" ?_).2, (h.2 [] 10).2⟩
  rw [hcol]
  exact List.mem_singleton.mpr rfl

/-! ## C7: auto_id handling -/

/-- An Int64 primary-key field flagged `auto_id`. -/
def autoIdPkField : FieldSpec :=
  { name := "id", type := "Int64", is_primary := true, auto_id := true }

/-- C7 counterexample: in the optimized path an `auto_id` Int64
primary-key field is not skipped — its column is generated (with a
random value), so a value is emitted for it in every row. -/
theorem milvus_c7_counterexample :
    optScalarColumn autoIdPkField 0 (fun _ => 0) 1 = some (.ints [-999999]) ∧
    optScalarColumn autoIdPkField 0 (fun _ => 0) 1 ≠ none := by
  refine ⟨by decide, by decide⟩

/-- C7 amended: the row-wise generator emits no value for an `auto_id`
field (the cell produces no entry); the optimized path bypasses only the
sequential-ID branch for `auto_id` Int64 fields and still emits one
random `np.random.randint(-999999, 999999)` value per row. -/
theorem milvus_c7_amended (pkName : Option String) (b : ℤ) (idx : ℕ)
    (f : FieldSpec) (nullDraw : ℕ) (d : Draws) (off n : ℕ) (nd : ℕ → ℕ)
    (hauto : f.auto_id = true) :
    rowwiseCell pkName b idx f nullDraw d = .ok none ∧
    optInt64Column f off nd n
      = (List.range n).map (fun i => npRandint (-999999) 999999 (nd i)) ∧
    (optInt64Column f off nd n).length = n := by
  refine ⟨?_, ?_, ?_⟩
  · unfold rowwiseCell
    rw [if_pos hauto]
  · unfold optInt64Column
    rw [hauto]
    simp
  · unfold optInt64Column
    rw [hauto]
    simp

/-- C7 witness: the amended statement at the concrete `auto_id` field. -/
theorem milvus_c7_witness :
    rowwiseCell none 0 0 autoIdPkField 0 ⟨fun _ => 0, fun _ => 0, []⟩ = .ok none ∧
    optInt64Column autoIdPkField 0 (fun _ => 0) 1
      = (List.range 1).map (fun i => npRandint (-999999) 999999 0) := by
  have h := milvus_c7_amended none 0 0 autoIdPkField 0
    ⟨fun _ => 0, fun _ => 0, []⟩ 0 1 (fun _ => 0) rfl
  exact ⟨h.1, h.2.1⟩

/-! ## C8: integer bounds -/

/-- C8 counterexample: the optimized path generates the value `-999999`
for a plain Int64 field with no declared bounds — outside the documented
default range `[0, 1_000_000]`. -/
theorem milvus_c8_counterexample :
    optInt64Column plainInt64Field 0 (fun _ => 0) 1 = [-999999] ∧
    ¬((0 : ℤ) ≤ -999999) := by
  refine ⟨by decide, by decide⟩

/-- C8 amended: the row-wise generator draws every integer value inside
`[min, max]` (defaults `[0, 1_000_000]` when the bounds are absent); the
optimized path ignores the declared bounds and draws Int64 values
uniformly in `[-999999, 999998]`, and generates no column at all for the
other integer widths (for example Int32). -/
theorem milvus_c8_amended (f : FieldSpec) (d : ℕ) (nd : ℕ → ℕ) (off n : ℕ)
    (low high : ℤ)
    (hmin : f.min_int = none) (hmax : f.max_int = none) (hlh : low ≤ high) :
    (0 ≤ rowwiseIntValue f d ∧ rowwiseIntValue f d ≤ 1000000) ∧
    (low ≤ pyRandint low high d ∧ pyRandint low high d ≤ high) ∧
    (∀ v ∈ optInt64Column plainInt64Field off nd n,
      -999999 ≤ v ∧ v ≤ 999998) ∧
    optScalarColumn { name := "a", type := "Int32" } off nd n = none := by
  refine ⟨?_, pyRandint_mem low high d hlh, ?_, rfl⟩
  · unfold rowwiseIntValue
    rw [hmin, hmax]
    exact pyRandint_mem 0 1000000 d (by norm_num)
  · intro v hv
    obtain ⟨i, hi, hve⟩ := List.mem_map.mp hv
    have := npRandint_mem (-999999) 999999 (nd i) (by norm_num)
    omega

/-- C8 witness: the amended statement at a bound-free Int64 field, a
`[-5, 5]` declared range, and the first optimized draw. -/
theorem milvus_c8_witness :
    (0 ≤ rowwiseIntValue plainInt64Field 0 ∧
      rowwiseIntValue plainInt64Field 0 ≤ 1000000) ∧
    ((-5 : ℤ) ≤ pyRandint (-5) 5 0 ∧ pyRandint (-5) 5 0 ≤ 5) ∧
    ((-999999 : ℤ) ≤ -999999 ∧ (-999999 : ℤ) ≤ 999998) ∧
    optScalarColumn { name := "a", type := "Int32" } 0 (fun _ => 0) 1 = none := by
  have h := milvus_c8_amended plainInt64Field 0 (fun _ => 0) 0 1 (-5) 5 rfl rfl
    (by norm_num)
  exact ⟨h.1, h.2.1, h.2.2.1 (-999999) (by decide), h.2.2.2⟩

/-! ## C9: binary vector layout -/

/-- C9 counterexample: for `dim = 8` the row-wise generator emits a list
of 8 one-bit entries, not `8 / 8 = 1` byte. -/
theorem milvus_c9_counterexample :
    rowwiseBinaryVec ⟨fun _ => 1, fun _ => 0, []⟩ 8 = [1, 1, 1, 1, 1, 1, 1, 1] ∧
    (rowwiseBinaryVec ⟨fun _ => 1, fun _ => 0, []⟩ 8).length = 8 ∧
    (8 : ℕ) ≠ 8 / 8 := by
  refine ⟨by decide, by decide, by decide⟩

/-- C9 amended: the optimized path emits exactly `dim / 8` uniform random
bytes (values below 256) per row; the row-wise path instead emits `dim`
entries, each a single bit (0 or 1). -/
theorem milvus_c9_amended (nd : ℕ → ℕ) (n dim : ℕ) (d : Draws) :
    (∀ row ∈ optBinaryVecColumn nd n dim,
      row.length = dim / 8 ∧ ∀ b ∈ row, b < 256) ∧
    (rowwiseBinaryVec d dim).length = dim ∧
    (∀ x ∈ rowwiseBinaryVec d dim, x = 0 ∨ x = 1) := by
  refine ⟨?_, by simp [rowwiseBinaryVec], ?_⟩
  · intro row hrow
    obtain ⟨r, hr, hre⟩ := List.mem_map.mp hrow
    constructor
    · rw [← hre]
      simp
    · intro b hb
      rw [← hre] at hb
      obtain ⟨c, hc, hbe⟩ := List.mem_map.mp hb
      have := npRandintN_mem 0 256 (nd (r * (dim / 8) + c)) (by norm_num)
      omega
  · intro x hx
    obtain ⟨i, hi, hxe⟩ := List.mem_map.mp hx
    have := npRandint_mem 0 2 (d.nat i) (by norm_num)
    omega

/-- C9 witness: the amended statement at one row, `dim = 8`. -/
theorem milvus_c9_witness :
    (([0] : List ℕ).length = 8 / 8 ∧ ∀ b ∈ ([0] : List ℕ), b < 256) ∧
    (rowwiseBinaryVec ⟨fun _ => 0, fun _ => 0, []⟩ 8).length = 8 := by
  have h := milvus_c9_amended (fun _ => 0) 1 8 ⟨fun _ => 0, fun _ => 0, []⟩
  exact ⟨h.1 [0] (by decide), h.2.1⟩

/-! ## C10: the primary-key branch precedes the nullable branch -/

theorem rowwiseCells_pk_not_null (nm : String) (b : ℤ) (idx : ℕ) :
    ∀ (fields : List FieldSpec) (k : ℕ) (nd : ℕ → ℕ) (ds : ℕ → Draws)
      (row : List (String × Option Val)),
      rowwiseCells (some nm) b idx fields k nd ds = .ok row →
      ∀ e ∈ row, e.1 = nm → e.2 ≠ none := by
  intro fields
  induction fields with
  | nil =>
    intro k nd ds row h e he _
    injection h with h'
    rw [← h'] at he
    cases he
  | cons f rest ih =>
    intro k nd ds row h e he hname
    unfold rowwiseCells at h
    cases hc : rowwiseCell (some nm) b idx f (nd k) (ds k) with
    | error e2 =>
      rw [hc] at h
      exact Except.noConfusion h
    | ok opt =>
      rw [hc] at h
      cases opt with
      | none => exact ih (k + 1) nd ds row h e he hname
      | some v =>
        cases hr : rowwiseCells (some nm) b idx rest (k + 1) nd ds with
        | error e3 =>
          rw [hr] at h
          exact Except.noConfusion h
        | ok tail =>
          rw [hr] at h
          injection h with h'
          rw [← h'] at he
          rcases List.mem_cons.mp he with he1 | hmem
          · rw [he1]
            show v ≠ none
            unfold rowwiseCell at hc
            by_cases ha : f.auto_id
            · rw [if_pos ha] at hc
              injection hc with hc'
              exact Option.noConfusion hc'
            · have hf : f.name = nm := by
                rw [he1] at hname
                exact hname
              rw [if_neg ha, if_pos (by rw [hf])] at hc
              injection hc with hc'
              injection hc' with hc''
              rw [← hc'']
              intro hcontra
              exact Option.noConfusion hcontra
          · exact ih (k + 1) nd ds tail hr e hmem hname

/-- C10: in the row-wise generator, whenever the schema's primary-key
field (the first field flagged `is_primary`) is not `auto_id`, every
entry of every generated row carrying the primary-key name holds a value,
never an explicit null, whatever the `nullable` flag and the `NULL_PROB`
draws: the primary-key branch is taken before the nullable branch. -/
theorem milvus_c10_pk_never_null (fields : List FieldSpec) (f : FieldSpec)
    (b : ℤ) (idx : ℕ) (nd : ℕ → ℕ) (ds : ℕ → Draws)
    (row : List (String × Option Val))
    (hfind : fields.find? (fun g => g.is_primary) = some f)
    (hauto : f.auto_id = false)
    (hrow : rowwiseRow fields b idx nd ds = .ok row) :
    ∀ e ∈ row, e.1 = f.name → e.2 ≠ none := by
  unfold rowwiseRow at hrow
  rw [hfind] at hrow
  exact rowwiseCells_pk_not_null f.name b idx fields 0 nd ds row hrow

/-- A nullable Int64 primary-key field. -/
def pkNullableField : FieldSpec :=
  { name := "id", type := "Int64", is_primary := true, nullable := true }

/-- A plain Int32 field. -/
def auxIntField : FieldSpec := { name := "x", type := "Int32" }

/-- C10 witness: a two-field schema whose nullable primary key still
receives the sequenced value `0`, not a null. -/
theorem milvus_c10_witness :
    (("id", some (Val.i 0)) : String × Option Val).2 ≠ none := by
  have h := milvus_c10_pk_never_null [pkNullableField, auxIntField]
    pkNullableField 0 0 (fun _ => 0) (fun _ => ⟨fun _ => 0, fun _ => 0, []⟩)
    [("id", some (Val.i 0)), ("x", some (Val.i 0))] rfl rfl rfl
  exact h ("id", some (Val.i 0)) (List.mem_cons_self _ _) rfl
